import Mathlib

/-!
Verification development for the SAP log-collection agent (`sap.py`).

The agent polls a remote audit-log API, deduplicates records by the SHA-256
hex digest of their canonical JSON serialization, appends unique records to a
rotating audit file, and forwards each unique record over TCP.

The embedding below translates the functions of `sap.py` into Lean:
machine-level concerns (32-bit words of SHA-256) use `Nat` with explicit
`% 2^32`; the filesystem and socket are explicit state values; fallible
operations return `Option`.
-/

namespace Sap

/-! ### SHA-256 (as used by `hashlib.sha256(...).hexdigest()`)

The deduplication identity in `sap.py` is the SHA-256 hex digest of the
UTF-8 bytes of a line (`sap.py` lines 198 and 210).  We implement FIPS 180-4
SHA-256 over byte lists, with 32-bit words as `Nat` reduced mod `2^32`. -/

/-- Modulus for 32-bit words. -/
def M32 : Nat := 4294967296

/-- Rotate a 32-bit word right by `n`. -/
def rotr32 (n x : Nat) : Nat := ((x >>> n) ||| (x <<< (32 - n))) % M32

/-- Bitwise complement of a 32-bit word. -/
def not32 (x : Nat) : Nat := x ^^^ 0xffffffff

/-- SHA-256 big sigma 0. -/
def bsig0 (x : Nat) : Nat := rotr32 2 x ^^^ rotr32 13 x ^^^ rotr32 22 x

/-- SHA-256 big sigma 1. -/
def bsig1 (x : Nat) : Nat := rotr32 6 x ^^^ rotr32 11 x ^^^ rotr32 25 x

/-- SHA-256 small sigma 0. -/
def ssig0 (x : Nat) : Nat := rotr32 7 x ^^^ rotr32 18 x ^^^ (x >>> 3)

/-- SHA-256 small sigma 1. -/
def ssig1 (x : Nat) : Nat := rotr32 17 x ^^^ rotr32 19 x ^^^ (x >>> 10)

/-- The 64 SHA-256 round constants of FIPS 180-4 (decimal). -/
def K256 : List Nat :=
  [1116352408, 1899447441, 3049323471, 3921009573, 961987163,
   1508970993, 2453635748, 2870763221, 3624381080, 310598401,
   607225278, 1426881987, 1925078388, 2162078206, 2614888103,
   3248222580, 3835390401, 4022224774, 264347078, 604807628,
   770255983, 1249150122, 1555081692, 1996064986, 2554220882,
   2821834349, 2952996808, 3210313671, 3336571891, 3584528711,
   113926993, 338241895, 666307205, 773529912, 1294757372,
   1396182291, 1695183700, 1986661051, 2177026350, 2456956037,
   2730485921, 2820302411, 3259730800, 3345764771, 3516065817,
   3600352804, 4094571909, 275423344, 430227734, 506948616,
   659060556, 883997877, 958139571, 1322822218, 1537002063,
   1747873779, 1955562222, 2024104815, 2227730452, 2361852424,
   2428436474, 2756734187, 3204031479, 3329325298]

/-- The SHA-256 initial hash value of FIPS 180-4 (decimal). -/
def H256 : List Nat :=
  [1779033703, 3144134277, 1013904242, 2773480762, 1359893119,
   2600822924, 528734635, 1541459225]

/-- A value as `n` big-endian bytes. -/
def toBytesBE : Nat → Nat → List Nat
  | 0, _ => []
  | n + 1, v => toBytesBE n (v / 256) ++ [v % 256]

/-- SHA-256 padding: append `0x80`, zero bytes to 56 mod 64, and the
bit length as 8 big-endian bytes. -/
def sha256pad (msg : List Nat) : List Nat :=
  let len := msg.length
  let padZeros := (119 - (len % 64)) % 64
  msg ++ [0x80] ++ List.replicate padZeros 0 ++ toBytesBE 8 (8 * len)

/-- Pack bytes into big-endian 32-bit words. -/
def bytesToWords : List Nat → List Nat
  | b0 :: b1 :: b2 :: b3 :: rest =>
      ((b0 <<< 24) ||| (b1 <<< 16) ||| (b2 <<< 8) ||| b3) :: bytesToWords rest
  | _ => []

/-- Split a byte list into 64-byte blocks (the fuel argument only bounds the
recursion; any fuel at least the number of blocks gives the full split). -/
def chunk64 : Nat → List Nat → List (List Nat)
  | 0, _ => []
  | _, [] => []
  | fuel + 1, bytes => bytes.take 64 :: chunk64 fuel (bytes.drop 64)

/-- Message-schedule extension, carried with the most recent word first:
`acc.getD 1 0` is `W[t-2]`, `acc.getD 6 0` is `W[t-7]`, `acc.getD 14 0` is
`W[t-15]`, `acc.getD 15 0` is `W[t-16]`. -/
def schedRev : Nat → List Nat → List Nat
  | 0, acc => acc
  | n + 1, acc =>
      let w := (ssig1 (acc.getD 1 0) + acc.getD 6 0 + ssig0 (acc.getD 14 0)
                  + acc.getD 15 0) % M32
      schedRev n (w :: acc)

/-- The 64-word message schedule of one block. -/
def schedule (block : List Nat) : List Nat := (schedRev 48 block.reverse).reverse

/-- The 64 compression rounds, on state `[a, b, c, d, e, f, g, h]`. -/
def compressRounds : List (Nat × Nat) → List Nat → List Nat
  | [], st => st
  | (k, w) :: rest, [a, b, c, d, e, f, g, h] =>
      let t1 := (h + bsig1 e + ((e &&& f) ^^^ (not32 e &&& g)) + k + w) % M32
      let t2 := (bsig0 a + ((a &&& b) ^^^ (a &&& c) ^^^ (b &&& c))) % M32
      compressRounds rest [(t1 + t2) % M32, a, b, c, (d + t1) % M32, e, f, g]
  | _, st => st

/-- Process one 64-byte block into the running hash. -/
def processBlock (h : List Nat) (block : List Nat) : List Nat :=
  let w := schedule (bytesToWords block)
  let st := compressRounds (K256.zip w) h
  (h.zip st).map (fun p => (p.1 + p.2) % M32)

/-- The SHA-256 digest of a byte list, as eight 32-bit words. -/
def sha256words (msg : List Nat) : List Nat :=
  let padded := sha256pad msg
  (chunk64 padded.length padded).foldl processBlock H256

/-- Lower-case hex digit: `0`-`9` then `a`-`f`. -/
def hexDigit (n : Nat) : Char :=
  if n < 10 then Char.ofNat (48 + n) else Char.ofNat (87 + n)

/-- A 32-bit word as 8 lower-case hex characters. -/
def wordToHex (w : Nat) : String :=
  String.mk ((List.range 8).map (fun i => hexDigit ((w >>> (28 - 4 * i)) &&& 15)))

/-- The SHA-256 hex digest of a byte list (as Python's `.hexdigest()`). -/
def sha256hexOfBytes (msg : List Nat) : String :=
  String.join ((sha256words msg).map wordToHex)

/-- UTF-8 encoding of a single code point. -/
def utf8Char (c : Nat) : List Nat :=
  if c < 0x80 then [c]
  else if c < 0x800 then
    [0xc0 ||| (c >>> 6), 0x80 ||| (c &&& 0x3f)]
  else if c < 0x10000 then
    [0xe0 ||| (c >>> 12), 0x80 ||| ((c >>> 6) &&& 0x3f), 0x80 ||| (c &&& 0x3f)]
  else
    [0xf0 ||| (c >>> 18), 0x80 ||| ((c >>> 12) &&& 0x3f),
     0x80 ||| ((c >>> 6) &&& 0x3f), 0x80 ||| (c &&& 0x3f)]

/-- UTF-8 bytes of a string (as Python's `str.encode('utf-8')`). -/
def strUtf8 (s : String) : List Nat := (s.data.map (fun c => utf8Char c.toNat)).flatten

/-- SHA-256 hex digest of the UTF-8 bytes of a string: the fingerprint
computation `hashlib.sha256(text.encode('utf-8')).hexdigest()` of `sap.py`. -/
def sha256_utf8_hex (s : String) : String := sha256hexOfBytes (strUtf8 s)

/-! ### Event records and `json.dumps`

The upstream API returns a list of JSON objects.  A record is modelled as an
insertion-ordered key/value document with primitive values, and serialized
exactly as Python's `json.dumps(log, ensure_ascii=False)` does with default
separators: items joined by a comma and a space, key and value joined by a
colon and a space, strings double-quoted with backslash escapes. -/

/-- A primitive JSON value of a record field. -/
inductive JVal where
  | null
  | bool (b : Bool)
  | int (n : Int)
  | str (s : String)
deriving DecidableEq, Repr

/-- An event record: an insertion-ordered key/value document (a Python dict
as returned by `response.json()`). -/
abbrev Record := List (String × JVal)

/-- Two lower-case hex digits of a byte. -/
def hex2 (n : Nat) : String := String.mk [hexDigit (n / 16), hexDigit (n % 16)]

/-- JSON string escaping of one character, with `ensure_ascii=False`:
backslash and double quote are escaped, control characters use their short
escapes or a `\u00XX` escape, everything else passes through. -/
def escapeChar (c : Char) : String :=
  if c = '"' then "\\\""
  else if c = '\\' then "\\\\"
  else if c = '\n' then "\\n"
  else if c = '\t' then "\\t"
  else if c = '\r' then "\\r"
  else if c.toNat = 8 then "\\b"
  else if c.toNat = 12 then "\\f"
  else if c.toNat < 32 then "\\u00" ++ hex2 c.toNat
  else String.singleton c

/-- JSON string escaping of a whole string. -/
def escapeStr (s : String) : String := String.join (s.data.map escapeChar)

/-- Serialization of a primitive value. -/
def jval_dumps : JVal → String
  | .null => "null"
  | .bool true => "true"
  | .bool false => "false"
  | .int n => toString n
  | .str s => "\"" ++ escapeStr s ++ "\""

/-- Serialization of the members of a record, joined by a comma and a space,
each member a quoted key, a colon, a space, and the value. -/
def members_dumps : List (String × JVal) → String
  | [] => ""
  | [(k, v)] => "\"" ++ escapeStr k ++ "\": " ++ jval_dumps v
  | (k, v) :: rest =>
      "\"" ++ escapeStr k ++ "\": " ++ jval_dumps v ++ ", " ++ members_dumps rest

/-- Canonical serialization of a record: `json.dumps(log, ensure_ascii=False)`
(`sap.py` line 209). -/
def json_dumps (r : Record) : String := "\x7b" ++ members_dumps r ++ "\x7d"

/-! ### TCP forwarder (`TcpLogSender`, `sap.py` lines 75-110)

The socket is modelled as `Option Unit` (absent or connected); the outcomes
of the fallible OS calls are an environment: `connectOk` tells whether
`socket.create_connection` succeeds, `sendOk` whether `sendall` succeeds. -/

/-- Outcomes of the socket operations for the current batch. -/
structure SendEnv where
  connectOk : Bool
  sendOk : Bool
deriving DecidableEq, Repr

/-- The forwarder's state: `self.sock`, absent or an open connection. -/
structure TcpLogSender where
  sock : Option Unit
deriving DecidableEq, Repr

/-- Connection attempt (`TcpLogSender.connect`): on success the socket is
set, on failure it is set to `None`. -/
def TcpLogSender.connect (env : SendEnv) (_s : TcpLogSender) : TcpLogSender :=
  if env.connectOk then ⟨some ()⟩ else ⟨none⟩

/-- One send (`TcpLogSender.send`, `sap.py` lines 90-102): reconnect lazily if
the socket is absent; if still absent, skip the send; otherwise transmit
`data + '\n'`, and on a send error close and null the socket.  Returns the new
sender state and the data actually put on the wire. -/
def TcpLogSender.send (env : SendEnv) (s : TcpLogSender) (data : String) :
    TcpLogSender × List String :=
  let s1 := if s.sock.isNone then TcpLogSender.connect env s else s
  match s1.sock with
  | none => (s1, [])
  | some _ =>
      if env.sendOk then (s1, [data ++ "\n"]) else (⟨none⟩, [])

/-! ### Deduplication, persistence and forwarding
(`write_unique_logs`, `sap.py` lines 204-221)

`write_unique_logs` first calls `rotate_audit_file()`, then for each record
serializes it, hashes the serialization, and if the hash is new inserts it
into `seen_hashes`, calls `tcp_sender.send(json_line)`, and collects
`json_line + '\n'` into `new_events`; after the loop, `new_events` (if any)
is appended to the audit file in one `writelines` call.

The observable side effects are recorded as an event trace: the rotation
call, each forwarding call, and the final file append. -/

/-- An observable side effect of a batch. -/
inductive Ev where
  | rotate
  | send (line : String)
  | append (lines : List String)
deriving DecidableEq, Repr

/-- Whether an event is a forwarding call. -/
def Ev.isSend : Ev → Bool
  | .send _ => true
  | _ => false

/-- The result of processing one batch. -/
structure BatchResult where
  seen_hashes : Finset String
  admitted : List String
  sender : TcpLogSender
  wire : List String
  events : List Ev

/-- The per-record loop of `write_unique_logs` (`sap.py` lines 207-214):
serialize, hash, and if the hash is unseen, insert it, forward the line, and
record it as admitted. -/
def process_logs (env : SendEnv) :
    List Record → Finset String → TcpLogSender → BatchResult
  | [], seen, snd => ⟨seen, [], snd, [], []⟩
  | log :: rest, seen, snd =>
      let json_line := json_dumps log
      let event_hash := sha256_utf8_hex json_line
      if event_hash ∈ seen then process_logs env rest seen snd
      else
        let sr := TcpLogSender.send env snd json_line
        let r := process_logs env rest (insert event_hash seen) sr.1
        ⟨r.seen_hashes, json_line :: r.admitted, r.sender,
         sr.2 ++ r.wire, Ev.send json_line :: r.events⟩

/-- The lines appended to the audit file for a batch: each admitted
serialization with a trailing newline (`new_events`, `sap.py` line 214). -/
def BatchResult.file_lines (r : BatchResult) : List String :=
  r.admitted.map (fun l => l ++ "\n")

/-- The whole of `write_unique_logs` (`sap.py` lines 204-221): rotation
first, then the per-record loop (whose forwarding calls happen inside it),
then a single append of `new_events` to the audit file when non-empty. -/
def write_unique_logs (env : SendEnv) (logs : List Record)
    (seen : Finset String) (snd : TcpLogSender) : BatchResult :=
  let r := process_logs env logs seen snd
  { r with
    events := Ev.rotate :: r.events ++
      (if r.admitted.isEmpty then [] else [Ev.append r.file_lines]) }

/-! ### Startup replay (`load_existing_event_hashes`, `sap.py` lines 193-201)

The audit file content is a list of the lines Python's file iteration
yields — each line *including* its trailing newline (the file is written by
`writelines` of `json_line + '\n'` entries, so every line ends in a
newline).  An absent file (`FileNotFoundError`) yields the empty set. -/

/-- Replay of the audit file into the Seen-Set: `none` is an absent file
(the `FileNotFoundError` branch), `some lines` the lines of the file as
iterated by Python, trailing newlines included; each line is hashed. -/
def load_existing_event_hashes : Option (List String) → Finset String
  | none => ∅
  | some lines => (lines.map (fun line => sha256_utf8_hex line)).toFinset

/-! ### Audit-file rotation (`rotate_audit_file`, `sap.py` lines 176-190)

The filesystem state relevant to rotation is the metadata of the two paths:
the active audit file and the single backup path, each absent or present
with a size and a modification time, plus the current clock.  The model is
the no-filesystem-error path; in the source any filesystem error is caught,
logged and swallowed. -/

/-- Metadata of a file on disk. -/
structure FsFile where
  size : Nat
  mtime : Nat
deriving DecidableEq, Repr

/-- The filesystem state seen by `rotate_audit_file`: the audit path, the
backup path, and the current time `time.time()`. -/
structure AuditFs where
  audit : Option FsFile
  backup : Option FsFile
  now : Nat
deriving DecidableEq, Repr

/-- Rotation size threshold: `MAX_AUDIT_FILESIZE = 10 * 1024 * 1024`. -/
def MAX_AUDIT_FILESIZE : Nat := 10 * 1024 * 1024

/-- Backup retention age: `BACKUP_MAX_AGE_SECS = 3600`. -/
def BACKUP_MAX_AGE_SECS : Nat := 3600

/-- Rotation (`sap.py` lines 176-190), error-free path: first, if a backup
exists and is older than one hour, delete it; then, if the audit file exists
with size at least the threshold, delete any existing backup and rename the
audit file to the backup path. -/
def rotate_audit_file (fs : AuditFs) : AuditFs :=
  let fs1 :=
    match fs.backup with
    | some b =>
        if fs.now - b.mtime > BACKUP_MAX_AGE_SECS then { fs with backup := none }
        else fs
    | none => fs
  match fs1.audit with
  | some a =>
      if a.size ≥ MAX_AUDIT_FILESIZE then { fs1 with audit := none, backup := some a }
      else fs1
  | none => fs1

/-! ### Fetching with retries (`fetch_logs`, `sap.py` lines 127-173)

Each attempt of the retry loop has one of the outcomes below, matching the
source's control paths: a timeout (`requests.exceptions.Timeout` handler), an
HTTP-layer error (`requests.RequestException` handler, including
`raise_for_status`), an empty response body, a parsed non-list JSON body, a
parsed JSON list, or a JSON decode failure (`json.JSONDecodeError` handler).
The environment maps each attempt number (1-based) to its outcome.  The model
returns the result (`none` is Python's `None`), the number of attempts made,
and the list of backoff sleeps performed. -/

/-- Retry bound: `MAX_RETRIES = 5`. -/
def MAX_RETRIES : Nat := 5

/-- Outcome of one request attempt. -/
inductive AttemptOutcome where
  | timeout
  | httpError
  | emptyBody
  | nonListJson
  | jsonList (logs : List Record)
  | malformedJson
deriving DecidableEq, Repr

/-- Trace of one `fetch_logs` call: its return value (`none` for Python's
`None`), how many attempts were made, and the backoff sleeps performed. -/
structure FetchTrace where
  result : Option (List Record)
  attemptsMade : Nat
  sleeps : List Nat
deriving DecidableEq, Repr

/-- The retry loop of `fetch_logs` from attempt number `attempt` with
`remaining` loop iterations left: an empty body or a non-list body returns
`[]`; a JSON list returns it; a decode failure returns `None` at once; a
timeout falls through to the backoff sleep of `2 ^ attempt` seconds and
retries; an HTTP error returns `None` when the attempt is the last, else
sleeps and retries; an exhausted loop returns `None` (`sap.py` line 173). -/
def fetch_go (outcomes : Nat → AttemptOutcome) : Nat → Nat → FetchTrace
  | _, 0 => ⟨none, 0, []⟩
  | attempt, remaining + 1 =>
      match outcomes attempt with
      | .emptyBody => ⟨some [], 1, []⟩
      | .nonListJson => ⟨some [], 1, []⟩
      | .jsonList logs => ⟨some logs, 1, []⟩
      | .malformedJson => ⟨none, 1, []⟩
      | .timeout =>
          let r := fetch_go outcomes (attempt + 1) remaining
          ⟨r.result, r.attemptsMade + 1, 2 ^ attempt :: r.sleeps⟩
      | .httpError =>
          if attempt = MAX_RETRIES then ⟨none, 1, []⟩
          else
            let r := fetch_go outcomes (attempt + 1) remaining
            ⟨r.result, r.attemptsMade + 1, 2 ^ attempt :: r.sleeps⟩

/-- One `fetch_logs` call: the loop `for attempt in range(1, MAX_RETRIES + 1)`. -/
def fetch_logs (outcomes : Nat → AttemptOutcome) : FetchTrace :=
  fetch_go outcomes 1 MAX_RETRIES

/-! ### The poll loop (`main`, `sap.py` lines 224-253)

After the initial fetch, the steady loop each cycle takes `now`, fetches the
window `[last_end_dt, now]`, processes the batch when the fetch returned a
non-empty list, and sets `last_end_dt = now` unconditionally (`sap.py`
line 249).  Timestamps are abstract instants. -/

/-- The mutable state of `main` apart from the window boundary. -/
structure MainState where
  seen_hashes : Finset String
  auditLines : List String
  sender : TcpLogSender

/-- One steady-loop cycle (`sap.py` lines 240-249): the fetched value is the
result of `fetch_logs` for the window `(last_end, now)`; on `None` only an
error is logged; on a non-empty list the batch is processed; on an empty
list only an info line is logged; in every case the new boundary is `now`.
Returns the new state, the new `last_end_dt`, and the window queried. -/
def poll_cycle (env : SendEnv) (st : MainState) (last_end now : Nat)
    (fetched : Option (List Record)) : MainState × Nat × (Nat × Nat) :=
  let window := (last_end, now)
  match fetched with
  | none => (st, now, window)
  | some logs =>
      if logs.isEmpty then (st, now, window)
      else
        let r := write_unique_logs env logs st.seen_hashes st.sender
        ({ seen_hashes := r.seen_hashes,
           auditLines := st.auditLines ++ r.file_lines,
           sender := r.sender }, now, window)

/-- A run of consecutive steady-loop cycles, each given by its `now` instant
and its fetch result; returns the final state, the final `last_end_dt`, and
the list of windows queried, in order. -/
def run_cycles (env : SendEnv) (st : MainState) (last_end : Nat) :
    List (Nat × Option (List Record)) → MainState × Nat × List (Nat × Nat)
  | [] => (st, last_end, [])
  | (now, fetched) :: rest =>
      let step := poll_cycle env st last_end now fetched
      let r := run_cycles env step.1 step.2.1 rest
      (r.1, r.2.1, step.2.2 :: r.2.2)

/-! ### Concrete fixtures -/

/-- The record `id: 1` of the spec's scenario. -/
def rec1 : Record := [("id", JVal.int 1)]

/-- The record `id: 2` of the spec's scenario. -/
def rec2 : Record := [("id", JVal.int 2)]

/-- A third distinct record. -/
def rec3 : Record := [("id", JVal.int 3)]

/-- An environment where the socket operations succeed. -/
def envOk : SendEnv := ⟨true, true⟩

/-- A sender whose socket is not yet connected. -/
def sender0 : TcpLogSender := ⟨none⟩

/-- Consecutive boundary pairs starting from a boundary. -/
def chainPairs : Nat → List Nat → List (Nat × Nat)
  | _, [] => []
  | le, t :: ts => (le, t) :: chainPairs t ts

/-- The ordering the spec asserts between persistence and forwarding: a
line handed to the forwarder was already part of an earlier append to the
audit file. -/
def persistedBeforeForward (t : List Ev) : Prop :=
  ∀ (i j : Nat) (l : String) (ls : List String),
    t[i]? = some (Ev.send l) → t[j]? = some (Ev.append ls) →
      (l ++ "\n") ∈ ls → j < i

/-! ### Helper lemmas -/

/-- Sanity check of the SHA-256 embedding against the FIPS 180-4 test vector
for the message `"abc"`. -/
theorem sha256_abc_vector :
    sha256_utf8_hex "abc" =
      "ba7816bf8f01cfea414140de5dae2223b00361a396177a9cb410ff61f20015ad" := by
  decide

/-- The per-record loop emits exactly one forwarding event per admitted
record, in admission order, and nothing else. -/
theorem process_logs_events_eq (env : SendEnv) (logs : List Record) :
    ∀ seen snd, (process_logs env logs seen snd).events =
      (process_logs env logs seen snd).admitted.map Ev.send := by
  induction logs with
  | nil => intro seen snd; rfl
  | cons log rest ih =>
      intro seen snd
      by_cases hm : sha256_utf8_hex (json_dumps log) ∈ seen <;>
        simp [process_logs, hm, ih]

/-- Unfolding of one retry-loop iteration on a timeout. -/
theorem fetch_go_timeout_step (outcomes : Nat → AttemptOutcome) (a r : Nat)
    (h : outcomes a = AttemptOutcome.timeout) :
    fetch_go outcomes a (r + 1) =
      ⟨(fetch_go outcomes (a + 1) r).result,
       (fetch_go outcomes (a + 1) r).attemptsMade + 1,
       2 ^ a :: (fetch_go outcomes (a + 1) r).sleeps⟩ := by
  simp [fetch_go, h]

/-- When every attempt from `a` on times out, the retry loop runs all its
iterations, sleeping the exponential backoffs, and ends with `None`. -/
theorem fetch_go_all_timeouts (outcomes : Nat → AttemptOutcome) :
    ∀ r a, (∀ j, a ≤ j → j < a + r → outcomes j = AttemptOutcome.timeout) →
      fetch_go outcomes a r =
        ⟨none, r, (List.range' a r).map (fun i => 2 ^ i)⟩ := by
  intro r
  induction r with
  | zero => intro a _; rfl
  | succ r ih =>
      intro a h
      rw [fetch_go_timeout_step outcomes a r (h a le_rfl (by omega)),
        ih (a + 1) (fun j h1 h2 => h j (by omega) (by omega)), List.range'_succ]
      rfl

/-- When the retry loop meets a decode failure at attempt `k`, with every
earlier attempt a retryable failure, it stops right there: `None`, `k`
attempts in total, and only the `k - 1` earlier backoff sleeps. -/
theorem fetch_go_settles_on_malformed (outcomes : Nat → AttemptOutcome) :
    ∀ r a k, a ≤ k → k < a + r →
      (∀ j, a ≤ j → j < k →
        outcomes j = AttemptOutcome.timeout ∨
          (outcomes j = AttemptOutcome.httpError ∧ j ≠ MAX_RETRIES)) →
      outcomes k = AttemptOutcome.malformedJson →
      (fetch_go outcomes a r).result = none ∧
        (fetch_go outcomes a r).attemptsMade = k + 1 - a ∧
        (fetch_go outcomes a r).sleeps.length = k - a := by
  intro r
  induction r with
  | zero => intro a k hak hkr _ _; omega
  | succ r ih =>
      intro a k hak hkr hprev hk
      by_cases hae : a = k
      · subst hae
        refine ⟨?_, ?_, ?_⟩ <;> simp [fetch_go, hk]
      · have halt : a < k := lt_of_le_of_ne hak hae
        obtain ⟨h1, h2, h3⟩ := ih (a + 1) k (by omega) (by omega)
          (fun j hj1 hj2 => hprev j (by omega) hj2) hk
        rcases hprev a le_rfl halt with hto | ⟨hhe, hne⟩
        · refine ⟨?_, ?_, ?_⟩ <;> simp [fetch_go, hto, h1, h2, h3] <;> omega
        · refine ⟨?_, ?_, ?_⟩ <;> simp [fetch_go, hhe, hne, h1, h2, h3] <;> omega

/-- A cycle's new `last_end_dt` is the cycle's `now`, whatever the fetch
returned. -/
theorem poll_cycle_advances (env : SendEnv) (st : MainState)
    (last_end now : Nat) (fetched : Option (List Record)) :
    (poll_cycle env st last_end now fetched).2.1 = now := by
  cases fetched with
  | none => rfl
  | some logs =>
      by_cases h : logs.isEmpty <;> simp [poll_cycle, h]

/-- A cycle queries exactly the window from the previous boundary to `now`. -/
theorem poll_cycle_window (env : SendEnv) (st : MainState)
    (last_end now : Nat) (fetched : Option (List Record)) :
    (poll_cycle env st last_end now fetched).2.2 = (last_end, now) := by
  cases fetched with
  | none => rfl
  | some logs =>
      by_cases h : logs.isEmpty <;> simp [poll_cycle, h]

/-- Restatement of the cons-successor lookup equation in the syntactic form
used below. -/
theorem getElem?_cons_succ_eq {α : Type} (a : α) (l : List α) (n : Nat) :
    (a :: l)[n + 1]? = l[n]? := List.getElem?_cons_succ

/-- The windows a run of cycles queries are the consecutive boundary pairs
of the cycle instants, starting from the incoming boundary. -/
theorem run_cycles_windows (env : SendEnv) :
    ∀ (cycles : List (Nat × Option (List Record))) (st : MainState) (le : Nat),
      (run_cycles env st le cycles).2.2 = chainPairs le (cycles.map Prod.fst) := by
  intro cycles
  induction cycles with
  | nil => intro st le; rfl
  | cons c rest ih =>
      intro st le
      obtain ⟨now, fetched⟩ := c
      simp [run_cycles, chainPairs, poll_cycle_advances, poll_cycle_window, ih]

/-- The first pair of a non-empty boundary chain starts at the incoming
boundary. -/
theorem chainPairs_head (le : Nat) (t : Nat) (ts : List Nat) :
    ((chainPairs le (t :: ts)).getD 0 (0, 0)).1 = le := rfl

/-- Consecutive pairs of a boundary chain share their boundary. -/
theorem chainPairs_contiguous :
    ∀ (ts : List Nat) (le : Nat) (i : Nat), i + 1 < (chainPairs le ts).length →
      ((chainPairs le ts).getD i (0, 0)).2 =
        ((chainPairs le ts).getD (i + 1) (0, 0)).1 := by
  intro ts
  induction ts with
  | nil => intro le i h; simp [chainPairs] at h
  | cons t ts ih =>
      intro le i h
      cases i with
      | zero =>
          cases ts with
          | nil => simp [chainPairs] at h
          | cons u us => rfl
      | succ i' =>
          have h' : i' + 1 < (chainPairs t ts).length := by
            simpa [chainPairs] using h
          simpa [chainPairs] using ih t i' h'

/-! ### The claims -/

/-- C10: if the audit file is absent at startup, replaying it into the
Seen-Set returns the empty set (the `FileNotFoundError` branch of
`load_existing_event_hashes`), and initialization proceeds from an empty
Seen-Set. -/
theorem load_absent_audit_file_yields_empty_set :
    load_existing_event_hashes none = ∅ := rfl

/-- C1 fails on the code: the startup replay hashes each audit line
*including* its trailing newline, while the write path hashes the bare
serialization, so the replayed fingerprint of a record written before a
restart differs from its write-time fingerprint, and the record is admitted
again after the restart.  Concretely for the record `id: 1`: its write-time
fingerprint is not in the set replayed from the very file its write
produced, and re-processing the same record against that replayed set
admits it a second time. -/
theorem fingerprint_restart_roundtrip_fails :
    sha256_utf8_hex (json_dumps rec1) ∉
      load_existing_event_hashes
        (some (write_unique_logs envOk [rec1] ∅ sender0).file_lines) ∧
    (write_unique_logs envOk [rec1]
        (load_existing_event_hashes
          (some (write_unique_logs envOk [rec1] ∅ sender0).file_lines))
        sender0).admitted = [json_dumps rec1] := by
  decide

/-- C2: when some attempt's response body fails JSON decoding (after any
earlier attempts failed retryably), `fetch_logs` returns `None` right at
that attempt: `k` attempts in total, no further retries, and no backoff
sleep after it (only the `k - 1` sleeps of the earlier failures). -/
theorem fetch_malformed_json_definitive_failure
    (outcomes : Nat → AttemptOutcome) (k : Nat)
    (hk1 : 1 ≤ k) (hk5 : k ≤ MAX_RETRIES)
    (hprev : ∀ j, 1 ≤ j → j < k →
      outcomes j = AttemptOutcome.timeout ∨
        (outcomes j = AttemptOutcome.httpError ∧ j ≠ MAX_RETRIES))
    (hk : outcomes k = AttemptOutcome.malformedJson) :
    (fetch_logs outcomes).result = none ∧
      (fetch_logs outcomes).attemptsMade = k ∧
      (fetch_logs outcomes).sleeps.length = k - 1 := by
  obtain ⟨h1, h2, h3⟩ := fetch_go_settles_on_malformed outcomes MAX_RETRIES 1 k
    hk1 (by omega) hprev hk
  refine ⟨h1, ?_, ?_⟩
  · rw [fetch_logs, h2]; omega
  · rw [fetch_logs, h3]

/-- Witness for C2 at a concrete environment: the second attempt returns a
malformed body after a first-attempt timeout. -/
theorem fetch_malformed_json_definitive_failure_witness :
    (fetch_logs (fun j => if j = 1 then AttemptOutcome.timeout
        else AttemptOutcome.malformedJson)).result = none ∧
      (fetch_logs (fun j => if j = 1 then AttemptOutcome.timeout
        else AttemptOutcome.malformedJson)).attemptsMade = 2 ∧
      (fetch_logs (fun j => if j = 1 then AttemptOutcome.timeout
        else AttemptOutcome.malformedJson)).sleeps.length = 1 :=
  fetch_malformed_json_definitive_failure
    (fun j => if j = 1 then AttemptOutcome.timeout else AttemptOutcome.malformedJson)
    2 (by decide) (by decide)
    (fun j hj1 hj2 => Or.inl (by
      have : j = 1 := by omega
      simp [this]))
    (by decide)

/-- C3: a fetch all of whose 5 attempts time out makes all 5 attempts,
sleeps the exponential backoffs `2, 4, 8, 16, 32`, and returns the
definitive-failure signal `None` — not an empty list. -/
theorem fetch_all_timeouts_definitive_failure
    (outcomes : Nat → AttemptOutcome)
    (h : ∀ j, 1 ≤ j → j ≤ MAX_RETRIES → outcomes j = AttemptOutcome.timeout) :
    fetch_logs outcomes = ⟨none, 5, [2, 4, 8, 16, 32]⟩ := by
  have h' : ∀ j, 1 ≤ j → j < 1 + MAX_RETRIES → outcomes j = AttemptOutcome.timeout :=
    fun j h1 h2 => h j h1 (by omega)
  calc fetch_logs outcomes
      = ⟨none, MAX_RETRIES, (List.range' 1 MAX_RETRIES).map (fun i => 2 ^ i)⟩ :=
        fetch_go_all_timeouts outcomes MAX_RETRIES 1 h'
    _ = ⟨none, 5, [2, 4, 8, 16, 32]⟩ := by decide

/-- Witness for C3: every attempt times out. -/
theorem fetch_all_timeouts_definitive_failure_witness :
    fetch_logs (fun _ => AttemptOutcome.timeout) = ⟨none, 5, [2, 4, 8, 16, 32]⟩ :=
  fetch_all_timeouts_definitive_failure (fun _ => AttemptOutcome.timeout)
    (fun _ _ _ => rfl)

/-- C4: with the Seen-Set replayed from an absent audit file and the batch
`id: 1, id: 2, id: 1`, exactly 2 lines are written to the audit file, the
Seen-Set ends with exactly 2 fingerprints, and the forwarder's send is
invoked exactly 2 times; and in general a record admitted once is reported
as a duplicate by a second check against the resulting Seen-Set, whatever
the forwarding environment and socket state. -/
theorem dedup_scenario_and_idempotent_admission :
    ((write_unique_logs envOk [rec1, rec2, rec1]
        (load_existing_event_hashes none) sender0).file_lines.length = 2 ∧
      (write_unique_logs envOk [rec1, rec2, rec1]
        (load_existing_event_hashes none) sender0).seen_hashes.card = 2 ∧
      ((write_unique_logs envOk [rec1, rec2, rec1]
        (load_existing_event_hashes none) sender0).events.filter Ev.isSend).length = 2) ∧
    ∀ (env env' : SendEnv) (log : Record) (seen : Finset String)
        (snd snd' : TcpLogSender),
      (process_logs env' [log]
        (process_logs env [log] seen snd).seen_hashes snd').admitted = [] := by
  constructor
  · refine ⟨by decide, by decide, by decide⟩
  · intro env env' log seen snd snd'
    by_cases hm : sha256_utf8_hex (json_dumps log) ∈ seen
    · simp [process_logs, hm]
    · simp [process_logs, hm]

/-- C5 as stated fails on the code: in the batch holding the single new
record `id: 1`, the forwarding call for the record (trace position 1) comes
before the audit-file append holding its line (trace position 2), so the
record is not appended before the Forwarder is asked to transmit it. -/
theorem forward_precedes_persist_counterexample :
    ¬ persistedBeforeForward (write_unique_logs envOk [rec1] ∅ sender0).events := by
  intro hp
  have h12 := hp 1 2 (json_dumps rec1) [json_dumps rec1 ++ "\n"]
    (by decide) (by decide) (by decide)
  omega

/-- C5 amended: for every processed batch the sequence is rotation first,
then the per-record dedup and forwarding calls, and last a single append of
all admitted lines to the audit file — every forwarding call strictly
precedes the audit-file append. -/
theorem rotate_then_forward_then_persist (env : SendEnv) (logs : List Record)
    (seen : Finset String) (snd : TcpLogSender) :
    ((write_unique_logs env logs seen snd).events)[0]? = some Ev.rotate ∧
    ∀ (i j : Nat) (l : String) (ls : List String),
      ((write_unique_logs env logs seen snd).events)[i]? = some (Ev.send l) →
      ((write_unique_logs env logs seen snd).events)[j]? = some (Ev.append ls) →
      i < j := by
  have hshape : (write_unique_logs env logs seen snd).events =
      Ev.rotate :: ((process_logs env logs seen snd).admitted.map Ev.send ++
        (if (process_logs env logs seen snd).admitted.isEmpty then []
         else [Ev.append ((process_logs env logs seen snd).admitted.map
                 (fun l => l ++ "\n"))])) := by
    simp [write_unique_logs, BatchResult.file_lines, process_logs_events_eq]
  refine ⟨by rw [hshape]; simp, ?_⟩
  intro i j l ls hsend happ
  rw [hshape] at hsend happ
  have hine : i ≠ 0 := by intro h0; subst h0; simp at hsend
  have hjne : j ≠ 0 := by intro h0; subst h0; simp at happ
  obtain ⟨i', rfl⟩ := Nat.exists_eq_succ_of_ne_zero hine
  obtain ⟨j', rfl⟩ := Nat.exists_eq_succ_of_ne_zero hjne
  simp only [Nat.succ_eq_add_one] at hsend happ ⊢
  rw [getElem?_cons_succ_eq] at hsend happ
  have htail : ∀ (k : Nat) (c : Bool) (L : List String),
      (if c then ([] : List Ev) else [Ev.append L])[k]? = some (Ev.send l) →
        False := by
    intro k c L hk
    cases c with
    | true => simp at hk
    | false =>
        match k, hk with
        | 0, hk => simp at hk
        | k' + 1, hk => simp at hk
  have hi : i' < ((process_logs env logs seen snd).admitted.map Ev.send).length := by
    by_contra hge
    push_neg at hge
    rw [List.getElem?_append_right hge] at hsend
    exact htail _ _ _ hsend
  have hj : ¬ j' < ((process_logs env logs seen snd).admitted.map Ev.send).length := by
    intro hlt
    rw [List.getElem?_append] at happ
    rw [if_pos hlt] at happ
    simp only [List.getElem?_map] at happ
    cases hx : (process_logs env logs seen snd).admitted[j']? <;>
      simp [hx] at happ
  omega

/-- Witness for the amended C5 at the batch holding `id: 1`: the trace
starts with rotation, and the forwarding position 1 precedes the append
position 2. -/
theorem rotate_then_forward_then_persist_witness :
    ((write_unique_logs envOk [rec1] ∅ sender0).events)[0]? = some Ev.rotate ∧
      (1 : Nat) < 2 :=
  ⟨(rotate_then_forward_then_persist envOk [rec1] ∅ sender0).1,
   (rotate_then_forward_then_persist envOk [rec1] ∅ sender0).2 1 2
     (json_dumps rec1) [json_dumps rec1 ++ "\n"] (by decide) (by decide)⟩

/-- C6: across every sequence of consecutive cycles each queried window's
end is the next window's start, and a cycle's boundary advances to its
`now` unconditionally — whatever the fetch returned (success, empty, or
definitive failure). -/
theorem poll_windows_contiguous_and_boundary_advances
    (env : SendEnv) (st : MainState) (le : Nat)
    (cycles : List (Nat × Option (List Record))) (i : Nat)
    (h : i + 1 < (run_cycles env st le cycles).2.2.length) :
    (((run_cycles env st le cycles).2.2).getD i (0, 0)).2 =
      (((run_cycles env st le cycles).2.2).getD (i + 1) (0, 0)).1 ∧
    ∀ (st' : MainState) (le' now : Nat) (fetched : Option (List Record)),
      (poll_cycle env st' le' now fetched).2.1 = now := by
  constructor
  · rw [run_cycles_windows] at h ⊢
    exact chainPairs_contiguous (cycles.map Prod.fst) le i h
  · intro st' le' now fetched
    exact poll_cycle_advances env st' le' now fetched

/-- Witness for C6: two cycles at instants 5 and 9 whose fetches failed
definitively still produce the contiguous windows `(0, 5)` and `(5, 9)`. -/
theorem poll_windows_contiguous_and_boundary_advances_witness :
    (((run_cycles envOk ⟨∅, [], sender0⟩ 0 [(5, none), (9, none)]).2.2).getD 0 (0, 0)).2 =
      (((run_cycles envOk ⟨∅, [], sender0⟩ 0 [(5, none), (9, none)]).2.2).getD 1 (0, 0)).1 ∧
    ∀ (st' : MainState) (le' now : Nat) (fetched : Option (List Record)),
      (poll_cycle envOk st' le' now fetched).2.1 = now :=
  poll_windows_contiguous_and_boundary_advances envOk ⟨∅, [], sender0⟩ 0
    [(5, none), (9, none)] 0 (by decide)

/-- C7: when the audit file exists with size at least 10 MiB and rotation
runs without filesystem errors, the active file becomes the backup (any
previous backup is superseded, so at most one backup generation remains)
and the active path no longer exists. -/
theorem rotation_at_threshold (fs : AuditFs) (a : FsFile)
    (ha : fs.audit = some a) (hsize : a.size ≥ MAX_AUDIT_FILESIZE) :
    (rotate_audit_file fs).audit = none ∧
      (rotate_audit_file fs).backup = some a := by
  unfold rotate_audit_file
  cases hb : fs.backup with
  | none => simp [hb, ha, hsize]
  | some b =>
      by_cases hage : fs.now - b.mtime > BACKUP_MAX_AGE_SECS <;>
        simp [hb, ha, hsize, hage]

/-- Witness for C7: an audit file of exactly 10 MiB and a stale backup. -/
theorem rotation_at_threshold_witness :
    (rotate_audit_file ⟨some ⟨10485760, 50⟩, some ⟨5, 0⟩, 10000⟩).audit = none ∧
      (rotate_audit_file ⟨some ⟨10485760, 50⟩, some ⟨5, 0⟩, 10000⟩).backup =
        some ⟨10485760, 50⟩ :=
  rotation_at_threshold ⟨some ⟨10485760, 50⟩, some ⟨5, 0⟩, 10000⟩ ⟨10485760, 50⟩
    rfl (by decide)

/-- C8: a backup older than one hour is deleted by rotation even when the
audit file is below the size threshold (or absent), so no rotation is due
and no new backup replaces it. -/
theorem backup_expiry (fs : AuditFs) (b : FsFile)
    (hb : fs.backup = some b)
    (hage : fs.now - b.mtime > BACKUP_MAX_AGE_SECS)
    (hsmall : ∀ a, fs.audit = some a → a.size < MAX_AUDIT_FILESIZE) :
    (rotate_audit_file fs).backup = none := by
  unfold rotate_audit_file
  cases ha : fs.audit with
  | none => simp [hb, hage, ha]
  | some a =>
      have hlt : ¬ a.size ≥ MAX_AUDIT_FILESIZE := Nat.not_le.mpr (hsmall a ha)
      simp [hb, hage, ha, hlt]

/-- Witness for C8: a 3-byte audit file and a backup 5000 seconds old. -/
theorem backup_expiry_witness :
    (rotate_audit_file ⟨some ⟨3, 0⟩, some ⟨1, 0⟩, 5001⟩).backup = none :=
  backup_expiry ⟨some ⟨3, 0⟩, some ⟨1, 0⟩, 5001⟩ ⟨1, 0⟩ rfl (by decide)
    (fun a ha => by cases ha; decide)

/-- C9: persistence is independent of every forwarding outcome — the
Seen-Set and the admitted lines of a batch are the same whatever the socket
environment and prior socket state; and concretely, with every connection
attempt failing, a batch of 3 new records still has all 3 lines appended,
all 3 fingerprints recorded, and nothing on the wire. -/
theorem persistence_independent_of_forwarding :
    (∀ (env env' : SendEnv) (logs : List Record) (seen : Finset String)
        (snd snd' : TcpLogSender),
      (process_logs env logs seen snd).seen_hashes =
          (process_logs env' logs seen snd').seen_hashes ∧
        (process_logs env logs seen snd).admitted =
          (process_logs env' logs seen snd').admitted) ∧
    ((write_unique_logs ⟨false, false⟩ [rec1, rec2, rec3] ∅ sender0).file_lines.length = 3 ∧
      (write_unique_logs ⟨false, false⟩ [rec1, rec2, rec3] ∅ sender0).seen_hashes.card = 3 ∧
      (write_unique_logs ⟨false, false⟩ [rec1, rec2, rec3] ∅ sender0).wire = []) := by
  constructor
  · intro env env' logs seen snd snd'
    induction logs generalizing seen snd snd' with
    | nil => exact ⟨rfl, rfl⟩
    | cons log rest ih =>
        by_cases hm : sha256_utf8_hex (json_dumps log) ∈ seen
        · simpa [process_logs, hm] using ih seen snd snd'
        · obtain ⟨h1, h2⟩ := ih (insert (sha256_utf8_hex (json_dumps log)) seen)
            (TcpLogSender.send env snd (json_dumps log)).1
            (TcpLogSender.send env' snd' (json_dumps log)).1
          simp [process_logs, hm, h1, h2]
  · refine ⟨by decide, by decide, by decide⟩

end Sap
